import Mathlib

/-!
Shallow embedding of the request/response messaging gateway of `elgatosf/js-utils`
(the path-based RPC variant: `src/rpc/request.ts`, `src/rpc/response.ts`,
`src/rpc/responder.ts`, `src/rpc/server.ts`, `src/rpc/gateway.ts`, and the
path-based `Client` found alongside them), together with theorems settling the
frozen behavioural claims about it.

JSON values are modelled with integer numerics; every numeric literal involved
in the protocol (status codes, timeouts) is an integer, so nothing in the
claims depends on floating-point behaviour.
-/

/-- A transport-neutral JSON value (`JsonValue` in `src/json.ts`). -/
inductive Json where
  | null : Json
  | bool : Bool → Json
  | num : Int → Json
  | str : String → Json
  | arr : List Json → Json
  | obj : List (String × Json) → Json

/-- Errors thrown by handlers or by the transport proxy (opaque to the protocol). -/
abbrev Err := String

/-- First value bound to `key` in a JSON object's field list (JS object property
lookup; runtime objects carry one binding per key). -/
def lookupField (fields : List (String × Json)) (key : String) : Option Json :=
  match fields with
  | [] => none
  | (k, v) :: rest => if k = key then some v else lookupField rest key

/-- `RequestOptions` (`src/rpc/request.ts`): `path`, optional `body`, optional
`timeout`, optional `unidirectional`. -/
structure RequestOptions where
  path : String
  body : Option Json
  timeout : Option Int
  unidirectional : Option Bool

/-- The `Request` class (`src/rpc/request.ts`): an identifier plus the options.
The constructor draws a fresh UUID for `id`; `parse` overwrites it with the
wire value, so `id` is explicit here. -/
structure Request where
  id : String
  options : RequestOptions

/-- `Request.path` getter. -/
def Request.path (r : Request) : String :=
  r.options.path

/-- `Request.body` getter. -/
def Request.body (r : Request) : Option Json :=
  r.options.body

/-- `Request.timeout` getter: `this.#options.timeout ?? 5000`. -/
def Request.timeout (r : Request) : Int :=
  r.options.timeout.getD 5000

/-- `Request.unidirectional` getter: `this.#options.unidirectional ?? false`. -/
def Request.unidirectional (r : Request) : Bool :=
  r.options.unidirectional.getD false

/-- `Request.toJSON`: `{ __type: "request", id, path, body, timeout, unidirectional }`,
with the getters supplying the defaulted `timeout`/`unidirectional` values; a
`body` of `undefined` is absent from the serialized JSON value. -/
def Request.toJSON (r : Request) : Json :=
  .obj ([("__type", .str "request"), ("id", .str r.id), ("path", .str r.path)]
    ++ (match r.body with | some b => [("body", b)] | none => [])
    ++ [("timeout", .num r.timeout), ("unidirectional", .bool r.unidirectional)])

/-- `Request.parse`: zod `safeParse` against the request schema
(`__type: literal "request"`, `id: string`, `path: string`, `body: optional any`,
`timeout: optional number`, `unidirectional: boolean`); on success the parsed
request keeps the wire `id` (`request.#id = data.id`). -/
def Request.parse (v : Json) : Option Request :=
  match v with
  | .obj fields =>
    match lookupField fields "__type", lookupField fields "id",
        lookupField fields "path", lookupField fields "unidirectional" with
    | some (.str "request"), some (.str id), some (.str path), some (.bool u) =>
      match lookupField fields "timeout" with
      | none => some ⟨id, ⟨path, lookupField fields "body", none, some u⟩⟩
      | some (.num t) => some ⟨id, ⟨path, lookupField fields "body", some t, some u⟩⟩
      | some _ => none
    | _, _, _, _ => none
  | _ => none

/-- The `Response` class (`src/rpc/response.ts`): original request `id` and
`path`, a `status` code, and an optional `body`. -/
structure Response where
  id : String
  path : String
  status : Int
  body : Option Json

/-- `Response.ok` getter: `status >= 200 && status < 300`. -/
def Response.ok (r : Response) : Bool :=
  200 ≤ r.status && r.status < 300

/-- `Response.parse`: zod `safeParse` against the response schema
(`__type: literal "response"`, `id: string`, `path: string`, `body: optional any`,
`status`: one of the literals 200, 202, 406, 408, 500, 501). -/
def Response.parse (v : Json) : Option Response :=
  match v with
  | .obj fields =>
    match lookupField fields "__type", lookupField fields "id",
        lookupField fields "path", lookupField fields "status" with
    | some (.str "response"), some (.str id), some (.str path), some (.num s) =>
      if s = 200 ∨ s = 202 ∨ s = 406 ∨ s = 408 ∨ s = 500 ∨ s = 501 then
        some ⟨id, path, s, lookupField fields "body"⟩
      else none
    | _, _, _, _ => none
  | _ => none

/-- `Response.toJSON`: `{ __type: "response", id, path, body, status }`. -/
def Response.toJSON (r : Response) : Json :=
  .obj ([("__type", .str "response"), ("id", .str r.id), ("path", .str r.path)]
    ++ (match r.body with | some b => [("body", b)] | none => [])
    ++ [("status", .num r.status)])

/-!
## Responder (`src/rpc/responder.ts`)

`MessageResponder.send` hands the response payload to the outbound proxy and is
guarded by the `#responded` flag. The payload handed to the proxy is recorded
as the emitted `Response`; the proxy's boolean result is ignored by the
responder, so it is not modelled here.
-/

/-- The `MessageResponder` class: the bound request plus the `#responded` flag
(`false` on construction). -/
structure MessageResponder where
  request : Request
  responded : Bool

/-- A fresh responder for a request (`new MessageResponder(request, proxy)`). -/
def MessageResponder.mk0 (req : Request) : MessageResponder :=
  ⟨req, false⟩

/-- `canRespond` getter: `!this.#responded`. -/
def MessageResponder.canRespond (r : MessageResponder) : Bool :=
  !r.responded

/-- `MessageResponder.send(status, body)`: when `canRespond`, forward
`{ __type: "response", id, path, body, status }` to the proxy and set
`#responded`; otherwise do nothing. Returns the updated responder and the
payload handed to the proxy, if any. -/
def MessageResponder.send (r : MessageResponder) (status : Int) (body : Option Json) :
    MessageResponder × Option Response :=
  if r.canRespond then
    ({ r with responded := true }, some ⟨r.request.id, r.request.path, status, body⟩)
  else
    (r, none)

/-- `MessageResponder.success(body)`: `send(200, body)`. -/
def MessageResponder.success (r : MessageResponder) (body : Option Json) :
    MessageResponder × Option Response :=
  r.send 200 body

/-- `MessageResponder.fail(body)`: `send(500, body)`. -/
def MessageResponder.fail (r : MessageResponder) (body : Option Json) :
    MessageResponder × Option Response :=
  r.send 500 body

/-- Run a sequence of `send` calls against a responder, collecting every payload
that reaches the proxy, in order. -/
def MessageResponder.run (r : MessageResponder) :
    List (Int × Option Json) → MessageResponder × List Response
  | [] => (r, [])
  | (s, b) :: rest =>
    let (r1, out) := r.send s b
    let (r2, outs) := r1.run rest
    (r2, out.toList ++ outs)

/-!
## Server (`src/rpc/server.ts`, path-based variant)

A route handler is an arbitrary function of the request, the responder and the
context. Its interaction with the system is fully described by: the outcome of
its route's `filter(context)`, the `responder.send` calls its body makes (in
order), and whether it finally returns a value (sent as a 200 body when not
`undefined`) or throws. The wrapper installed by `Server.route` and the
dispatch loop of `Server.#routeRequest` are embedded below over such handler
descriptions.
-/

/-- What a route handler's body finally does. -/
inductive HandlerOutcome where
  | ret (value : Option Json)
  | raise (e : Err)

/-- One registration made through `Server.route`: the filter's verdict for the
incoming context, the `responder.send` calls the body makes, and the body's
final outcome. -/
structure HandlerSpec where
  filter : Bool
  sends : List (Int × Option Json)
  outcome : HandlerOutcome

/-- Observable events during request routing: a payload handed to the outbound
proxy, or the start of the body of the accepting handler at position `i`. -/
inductive Ev where
  | wire (resp : Response)
  | body (i : Nat)

/-- The wire payloads within a trace, in order. -/
def wireEvents (trace : List Ev) : List Response :=
  trace.foldr (fun e acc => match e with | .wire r => r :: acc | .body _ => acc) []

/-- Body sends threaded through the responder, producing wire events. -/
def runSends (r : MessageResponder) :
    List (Int × Option Json) → MessageResponder × List Ev
  | [] => (r, [])
  | (s, b) :: rest =>
    let (r1, out) := r.send s b
    let (r2, evs) := runSends r1 rest
    (r2, (out.toList.map Ev.wire) ++ evs)

/-- The listener installed by `Server.route` for one registration, run for the
inbound request: when the filter passes, `await resolve()` (a 202 is sent when
the request is unidirectional, and the `resolved` flag is set), then the body
runs; a returned non-`undefined` value is sent as a 200 response; a thrown
error causes `responder.send(500)` followed by re-throwing. Returns the updated
responder, the updated `resolved` flag, the events, and the propagated error,
if any. -/
def runRoute (req : Request) (i : Nat) (r : MessageResponder) (resolved : Bool)
    (h : HandlerSpec) : MessageResponder × Bool × List Ev × Option Err :=
  if h.filter then
    let (r1, out202) :=
      if req.unidirectional then r.send 202 none else (r, none)
    let (r2, bodyEvs) := runSends r1 h.sends
    let pre := (out202.toList.map Ev.wire) ++ [Ev.body i] ++ bodyEvs
    match h.outcome with
    | .ret none => (r2, true, pre, none)
    | .ret (some v) =>
      let (r3, out) := r2.send 200 (some v)
      (r3, true, pre ++ (out.toList.map Ev.wire), none)
    | .raise e =>
      let (r3, out) := r2.send 500 none
      (r3, true, pre ++ (out.toList.map Ev.wire), some e)
  else
    (r, resolved, [], none)

/-- The `for (const route of routes) await route({...})` loop of
`Server.#routeRequest`: listeners run in order; a thrown error aborts the loop
and propagates. `i` is the position of the first listener. -/
def runRoutes (req : Request) (i : Nat) (r : MessageResponder) (resolved : Bool) :
    List HandlerSpec → MessageResponder × Bool × List Ev × Option Err
  | [] => (r, resolved, [], none)
  | h :: rest =>
    let (r1, resolved1, evs1, err1) := runRoute req i r resolved h
    match err1 with
    | some e => (r1, resolved1, evs1, some e)
    | none =>
      let (r2, resolved2, evs2, err2) := runRoutes req (i + 1) r1 resolved1 rest
      (r2, resolved2, evs1 ++ evs2, err2)

/-- `Server.#routeRequest`: create a fresh responder, run every listener of the
path in order, then fall back to a 200 when the request was resolved (returning
`true`) or send a 501 when it was not (returning `false`); an error thrown by a
listener propagates. -/
def routeRequest (req : Request) (hs : List HandlerSpec) :
    List Ev × Except Err Bool :=
  let (r, resolved, evs, err) := runRoutes req 0 (MessageResponder.mk0 req) false hs
  match err with
  | some e => (evs, .error e)
  | none =>
    if resolved then
      let (_, out) := r.send 200 none
      (evs ++ (out.toList.map Ev.wire), .ok true)
    else
      let (_, out) := r.send 501 none
      (evs ++ (out.toList.map Ev.wire), .ok false)

/-- The server's route table: registrations in insertion order, keyed by path
(the `EventEmitter` used as `#routes`). -/
abbrev RouteTable := List (String × HandlerSpec)

/-- `this.#routes.listeners(path)`: the handlers registered for `path`, in
registration order. -/
def listeners (routes : RouteTable) (path : String) : List HandlerSpec :=
  (routes.filter (fun e => e.1 = path)).map (fun e => e.2)

/-- `Server.receive(message, contextProvider)`: parse the message as a request;
on failure return `false`; otherwise route it, returning `#routeRequest`'s
verdict (errors thrown by handlers propagate to the caller of `receive`). -/
def Server.receive (routes : RouteTable) (v : Json) : List Ev × Except Err Bool :=
  match Request.parse v with
  | some req => routeRequest req (listeners routes req.path)
  | none => ([], .ok false)

/-!
## Client (path-based `Client`, `rpc/client` draft)

`Client` keeps `#requests : Map<string, (res: Response) => void>`. The resolver
stored by `send` clears the request's timeout (unless the response status is
408) and resolves the caller's promise with the response. The observable state
is modelled as: the pending map (id, path of the originating request), the set
of armed timeout timers (id, path captured by the timer callback), and the
ordered record of resolver invocations (promise resolutions).
-/

/-- Observable state of a `Client`. -/
structure ClientState where
  pending : List (String × String)
  timers : List (String × String)
  resolutions : List (String × Response)

/-- A client with no outstanding requests. -/
def ClientState.init : ClientState :=
  ⟨[], [], []⟩

/-- `Map.get(a)`: first value bound to key `a`. -/
def lookupKey {α : Type} (l : List (String × α)) (a : String) : Option α :=
  match l with
  | [] => none
  | (k, v) :: rest => if k = a then some v else lookupKey rest a

/-- `Map.delete(a)`: remove the binding for key `a` (a no-op when absent). -/
def eraseKey {α : Type} (l : List (String × α)) (a : String) : List (String × α) :=
  l.filter (fun e => e.1 ≠ a)

/-- `Map.set(id, v)`: replace any binding for `id`. -/
def mapSet (m : List (String × String)) (id v : String) : List (String × String) :=
  eraseKey m id ++ [(id, v)]

/-- `Client.#resolveRequest(response)`: look the id up in `#requests`, delete
the entry (a no-op when absent), and when a resolver was found invoke it — the
resolver clears the timer when the status is not 408, and resolves the promise
with the response. Returns the new state and whether a pending request was
resolved. -/
def ClientState.resolveRequest (s : ClientState) (resp : Response) :
    ClientState × Bool :=
  match lookupKey s.pending resp.id with
  | some _ =>
    ({ pending := eraseKey s.pending resp.id,
       timers := if resp.status ≠ 408 then eraseKey s.timers resp.id else s.timers,
       resolutions := s.resolutions ++ [(resp.id, resp)] }, true)
  | none =>
    ({ s with pending := eraseKey s.pending resp.id }, false)

/-- `Client.receive(value)`: parse the value as a `Response`; when it parses and
`#resolveRequest` matched a pending request, return `true`; otherwise `false`. -/
def ClientState.receive (s : ClientState) (v : Json) : ClientState × Bool :=
  match Response.parse v with
  | some resp =>
    let (s1, handled) := s.resolveRequest resp
    (s1, handled)
  | none => (s, false)

/-- Behaviour of the transport proxy for one `send`: it returns an acceptance
boolean or it throws (a rejected promise). -/
inductive ProxyBehavior where
  | returns (accepted : Bool)
  | throws (e : Err)

/-- Outcome of the promise returned by `Client.send` as of the proxy settling:
already resolved with a response, still awaiting a response/timeout, or
rejected because the `await this.#proxy(...)` threw. -/
inductive SendOutcome where
  | resolved (resp : Response)
  | awaiting
  | rejected (e : Err)

/-- `Client.send(request)` up to the point the proxy settles: register the
resolver in `#requests`, arm the timeout timer, then `await this.#proxy(...)`
(no catch: a throwing proxy rejects `send`'s promise). When the proxy answers
`false`, `#resolveRequest(new Response(id, path, 406, undefined))` resolves the
promise immediately. -/
def ClientState.send (s : ClientState) (req : Request) (pb : ProxyBehavior) :
    ClientState × SendOutcome :=
  let s1 : ClientState :=
    { pending := mapSet s.pending req.id req.path,
      timers := s.timers ++ [(req.id, req.path)],
      resolutions := s.resolutions }
  match pb with
  | .throws e => (s1, .rejected e)
  | .returns true => (s1, .awaiting)
  | .returns false =>
    let (s2, handled) := s1.resolveRequest ⟨req.id, req.path, 406, none⟩
    (s2, if handled then .resolved ⟨req.id, req.path, 406, none⟩ else .awaiting)

/-- Events that can reach a client after requests are in flight: an inbound
value offered to `receive`, a timeout timer firing (the callback resolves the
request with a 408 response built from the captured id and path), or the proxy
of an in-flight `send` settling with `false` (resolving the request with a 406
response). -/
inductive ClientEvent where
  | recv (v : Json)
  | timerFires (id : String)
  | proxyRejected (id : String) (path : String)

/-- One step of the client's event loop. -/
def ClientState.step (s : ClientState) (e : ClientEvent) : ClientState :=
  match e with
  | .recv v => (s.receive v).1
  | .timerFires id =>
    match lookupKey s.timers id with
    | some path =>
      let s1 : ClientState := { s with timers := eraseKey s.timers id }
      (s1.resolveRequest ⟨id, path, 408, none⟩).1
    | none => s
  | .proxyRejected id path => (s.resolveRequest ⟨id, path, 406, none⟩).1

/-- Run a sequence of client events. -/
def ClientState.run (s : ClientState) : List ClientEvent → ClientState
  | [] => s
  | e :: rest => (s.step e).run rest

/-- The number of times the resolver of request `id` has been invoked. -/
def ClientState.resolvedCount (s : ClientState) (id : String) : Nat :=
  (s.resolutions.filter (fun p => p.1 = id)).length

/-- Whether request `id` is in the pending pool. -/
def ClientState.isPending (s : ClientState) (id : String) : Bool :=
  (lookupKey s.pending id).isSome

/-!
## Gateway (`src/rpc/gateway.ts`)

`MessageGateway.receive` offers the value to the client, and only when the
client did not consume it, to the server.
-/

/-- `MessageGateway.receive(message, contextProvider)`: `Client.receive` first;
when it returns `true` the gateway returns `true` without consulting the
server; otherwise the server's verdict (and its outbound traffic) is the
gateway's. -/
def MessageGateway.receive (cs : ClientState) (routes : RouteTable) (v : Json) :
    ClientState × List Ev × Except Err Bool :=
  let (cs1, consumed) := cs.receive v
  if consumed then
    (cs1, [], .ok true)
  else
    let (evs, result) := Server.receive routes v
    (cs1, evs, result)

/-!
## Helper lemmas about association-list maps
-/

theorem lookupKey_eraseKey_self {α : Type} (l : List (String × α)) (a : String) :
    lookupKey (eraseKey l a) a = none := by
  induction l with
  | nil => rfl
  | cons e rest ih =>
    obtain ⟨k, v⟩ := e
    by_cases hk : k = a
    · simp [eraseKey, List.filter, hk] at ih ⊢
      exact ih
    · simp [eraseKey, List.filter, hk, lookupKey] at ih ⊢
      exact ih

theorem lookupKey_eraseKey_ne {α : Type} (l : List (String × α)) (a b : String)
    (hab : a ≠ b) : lookupKey (eraseKey l b) a = lookupKey l a := by
  induction l with
  | nil => rfl
  | cons e rest ih =>
    obtain ⟨k, v⟩ := e
    by_cases hk : k = b
    · subst hk
      simp [eraseKey, List.filter, lookupKey, Ne.symm hab] at ih ⊢
      exact ih
    · by_cases ha : k = a
      · simp [eraseKey, List.filter, lookupKey, hk, ha, hab]
      · simp [eraseKey, List.filter, lookupKey, hk, ha] at ih ⊢
        exact ih

theorem eraseKey_eq_self_of_lookup_none {α : Type} (l : List (String × α)) (a : String)
    (h : lookupKey l a = none) : eraseKey l a = l := by
  induction l with
  | nil => rfl
  | cons e rest ih =>
    obtain ⟨k, v⟩ := e
    by_cases hk : k = a
    · simp [lookupKey, hk] at h
    · simp [lookupKey, hk] at h
      simp [eraseKey, List.filter, hk] at ih ⊢
      exact ih h

theorem lookupKey_append_of_none {α : Type} (l l' : List (String × α)) (a : String)
    (h : lookupKey l a = none) : lookupKey (l ++ l') a = lookupKey l' a := by
  induction l with
  | nil => rfl
  | cons e rest ih =>
    obtain ⟨k, v⟩ := e
    by_cases hk : k = a
    · simp [lookupKey, hk] at h
    · simp [lookupKey, hk] at h ⊢
      exact ih h

theorem lookupKey_append_single {α : Type} (l : List (String × α)) (a : String) (v : α) :
    lookupKey (eraseKey l a ++ [(a, v)]) a = some v := by
  rw [lookupKey_append_of_none _ _ _ (lookupKey_eraseKey_self l a)]
  simp [lookupKey]

/-!
## Theorems
-/

theorem MessageResponder.run_of_responded (req : Request)
    (calls : List (Int × Option Json)) :
    MessageResponder.run ⟨req, true⟩ calls = (⟨req, true⟩, []) := by
  induction calls with
  | nil => rfl
  | cons c rest ih =>
    obtain ⟨s, b⟩ := c
    simp [MessageResponder.run, MessageResponder.send, MessageResponder.canRespond, ih]

/-- C1: across any sequence of `success`/`fail`/`send` calls (all of which route
through `MessageResponder.send`), only the first call hands a payload to the
transport proxy — the emitted payloads are exactly the first call's response —
every later call is a silent no-op, and `canRespond` is `true` exactly until the
first send completes (it is `true` iff no call has been made yet). -/
theorem responder_at_most_one_response (req : Request)
    (calls : List (Int × Option Json)) :
    ((MessageResponder.mk0 req).run calls).2
        = (calls.head?.map (fun c => Response.mk req.id req.path c.1 c.2)).toList
      ∧ ((MessageResponder.mk0 req).run calls).1.canRespond = calls.isEmpty := by
  cases calls with
  | nil => exact ⟨rfl, rfl⟩
  | cons c rest =>
    obtain ⟨s, b⟩ := c
    simp [MessageResponder.mk0, MessageResponder.run, MessageResponder.send,
      MessageResponder.canRespond, MessageResponder.run_of_responded]

/-- C10: `Request.parse` inverts `Request.toJSON`: parsing a serialized request
succeeds and yields a request with the same `id` (the wire id is kept, no fresh
one is generated), `path`, `body`, `timeout` (5000 when omitted) and
`unidirectional` (`false` when omitted). -/
theorem request_parse_toJSON_roundtrip (r : Request) :
    ∃ r' : Request, Request.parse r.toJSON = some r'
      ∧ r'.id = r.id ∧ r'.path = r.path ∧ r'.body = r.body
      ∧ r'.timeout = r.timeout ∧ r'.unidirectional = r.unidirectional := by
  cases hb : r.body with
  | none =>
    refine ⟨⟨r.id, ⟨r.path, none, some r.timeout, some r.unidirectional⟩⟩, ?_, rfl, rfl, ?_, rfl, rfl⟩
    · simp [Request.parse, Request.toJSON, lookupField, hb]
    · simp [Request.body, hb]
  | some b =>
    refine ⟨⟨r.id, ⟨r.path, some b, some r.timeout, some r.unidirectional⟩⟩, ?_, rfl, rfl, ?_, rfl, rfl⟩
    · simp [Request.parse, Request.toJSON, lookupField, hb]
    · simp [Request.body, hb]

/-- C9: a value that is neither a well-formed request nor a well-formed response
is ignored by the gateway: `receive` returns `false`, no error is raised
(the result is `.ok`), the client state is untouched, and no payload of any
status is handed to the transport proxy (the event trace is empty). -/
theorem gateway_unknown_payload_noop (cs : ClientState) (routes : RouteTable)
    (v : Json) (hreq : Request.parse v = none) (hres : Response.parse v = none) :
    MessageGateway.receive cs routes v = (cs, [], .ok false) := by
  simp [MessageGateway.receive, ClientState.receive, hres, Server.receive, hreq]

/-- Witness for C9 at the concrete payload `true` (a boolean is neither a
request nor a response envelope). -/
theorem gateway_unknown_payload_noop_witness :
    MessageGateway.receive ClientState.init [] (.bool true)
      = (ClientState.init, [], .ok false) :=
  gateway_unknown_payload_noop ClientState.init [] (.bool true) rfl rfl

/-- C5: the gateway offers every incoming value to the client first; when the
client consumes it the server is never consulted (no routing, no outbound
traffic); only when the client does not consume it is the value offered to the
server; and the call returns `true` exactly when the client or the server
consumed the value. -/
theorem gateway_receive_client_first (cs : ClientState) (routes : RouteTable)
    (v : Json) :
    ((cs.receive v).2 = true →
      MessageGateway.receive cs routes v = ((cs.receive v).1, [], .ok true))
    ∧ ((cs.receive v).2 = false →
      MessageGateway.receive cs routes v
        = ((cs.receive v).1, (Server.receive routes v).1, (Server.receive routes v).2))
    ∧ ((MessageGateway.receive cs routes v).2.2 = .ok true
        ↔ (cs.receive v).2 = true ∨ (Server.receive routes v).2 = .ok true) := by
  rcases hcv : cs.receive v with ⟨cs1, consumed⟩
  rcases hsv : Server.receive routes v with ⟨evs, result⟩
  unfold MessageGateway.receive
  rw [hcv, hsv]
  cases consumed
  · simp
  · simp

/-- Witness for C5: with one pending request and a matching response on the
wire, the client consumes the value and the gateway returns `true` without any
server-side traffic. -/
theorem gateway_receive_client_first_witness :
    MessageGateway.receive ⟨[("a", "/p")], [("a", "/p")], []⟩ []
        (.obj [("__type", .str "response"), ("id", .str "a"), ("path", .str "/p"),
          ("status", .num 200)])
      = (((⟨[("a", "/p")], [("a", "/p")], []⟩ : ClientState).receive
          (.obj [("__type", .str "response"), ("id", .str "a"), ("path", .str "/p"),
            ("status", .num 200)])).1, [], .ok true) :=
  (gateway_receive_client_first ⟨[("a", "/p")], [("a", "/p")], []⟩ []
    (.obj [("__type", .str "response"), ("id", .str "a"), ("path", .str "/p"),
      ("status", .num 200)])).1 rfl

theorem runRoutes_all_filtered (req : Request) (hs : List HandlerSpec)
    (hflt : ∀ h ∈ hs, h.filter = false) (i : Nat) (r : MessageResponder)
    (resolved : Bool) :
    runRoutes req i r resolved hs = (r, resolved, [], none) := by
  induction hs generalizing i with
  | nil => rfl
  | cons h rest ih =>
    have hh : h.filter = false := hflt h (List.mem_cons_self h rest)
    have ih2 := ih (fun h2 hm => hflt h2 (List.mem_cons_of_mem h hm)) (i + 1)
    simp [runRoutes, runRoute, hh, ih2]

/-- C7: a well-formed request whose path has no registered handler, or for which
every registered handler's filter declines, produces exactly one payload on the
wire — a 501 (not-implemented) response — and `Server.receive` returns `false`
without raising. -/
theorem server_unmatched_route_501 (routes : RouteTable) (v : Json) (req : Request)
    (hparse : Request.parse v = some req)
    (hflt : ∀ h ∈ listeners routes req.path, h.filter = false) :
    Server.receive routes v = ([.wire ⟨req.id, req.path, 501, none⟩], .ok false) := by
  have hrr := runRoutes_all_filtered req (listeners routes req.path) hflt 0
    ⟨req, false⟩ false
  simp [Server.receive, hparse, routeRequest, hrr, MessageResponder.mk0,
    MessageResponder.send, MessageResponder.canRespond]

/-- Witness for C7: an empty route table (zero handlers) and a concrete
well-formed request produce the single 501 response and a `false` verdict. -/
theorem server_unmatched_route_501_witness :
    Server.receive []
        (.obj [("__type", .str "request"), ("id", .str "a"), ("path", .str "/p"),
          ("unidirectional", .bool false)])
      = ([.wire ⟨"a", "/p", 501, none⟩], .ok false) :=
  server_unmatched_route_501 []
    (.obj [("__type", .str "request"), ("id", .str "a"), ("path", .str "/p"),
      ("unidirectional", .bool false)])
    ⟨"a", ⟨"/p", none, none, some false⟩⟩ rfl (by simp [listeners])

theorem wireEvents_foldr_acc (a : List Ev) (x : List Response) :
    a.foldr (fun e acc => match e with | .wire r => r :: acc | .body _ => acc) x
      = wireEvents a ++ x := by
  induction a with
  | nil => rfl
  | cons e rest ih => cases e <;> simp [wireEvents, List.foldr] at ih ⊢ <;> simp [ih]

theorem wireEvents_append (a b : List Ev) :
    wireEvents (a ++ b) = wireEvents a ++ wireEvents b := by
  rw [wireEvents, List.foldr_append, wireEvents_foldr_acc]
  rfl

theorem runSends_of_responded (req : Request) (sends : List (Int × Option Json)) :
    runSends ⟨req, true⟩ sends = (⟨req, true⟩, []) := by
  induction sends with
  | nil => rfl
  | cons c rest ih =>
    obtain ⟨s, b⟩ := c
    simp [runSends, MessageResponder.send, MessageResponder.canRespond, ih]

theorem runRoute_of_responded (req : Request) (i : Nat) (h : HandlerSpec) :
    (runRoute req i ⟨req, true⟩ true h).1 = ⟨req, true⟩
    ∧ (runRoute req i ⟨req, true⟩ true h).2.1 = true
    ∧ wireEvents (runRoute req i ⟨req, true⟩ true h).2.2.1 = [] := by
  cases hf : h.filter
  · simp [runRoute, hf, wireEvents]
  · cases ho : h.outcome with
    | ret value =>
      cases value <;>
        simp [runRoute, hf, ho, MessageResponder.send, MessageResponder.canRespond,
          runSends_of_responded, wireEvents]
    | raise e =>
      simp [runRoute, hf, ho, MessageResponder.send, MessageResponder.canRespond,
        runSends_of_responded, wireEvents]

theorem runRoutes_of_responded (req : Request) (hs : List HandlerSpec) (i : Nat) :
    (runRoutes req i ⟨req, true⟩ true hs).1 = ⟨req, true⟩
    ∧ (runRoutes req i ⟨req, true⟩ true hs).2.1 = true
    ∧ wireEvents (runRoutes req i ⟨req, true⟩ true hs).2.2.1 = [] := by
  induction hs generalizing i with
  | nil => exact ⟨rfl, rfl, rfl⟩
  | cons h rest ih =>
    obtain ⟨h1, h2, h3⟩ := runRoute_of_responded req i h
    rcases hrr : runRoute req i ⟨req, true⟩ true h with ⟨r1, resolved1, evs1, err1⟩
    rw [hrr] at h1 h2 h3
    simp only at h1 h2 h3
    subst h1
    subst h2
    cases err1 with
    | some e => simp [runRoutes, hrr, h3]
    | none =>
      obtain ⟨g1, g2, g3⟩ := ih (i + 1)
      simp [runRoutes, hrr, wireEvents_append, h3, g1, g2, g3]

theorem wireEvents_nil : wireEvents [] = [] := rfl

theorem wireEvents_cons_wire (r : Response) (t : List Ev) :
    wireEvents (.wire r :: t) = r :: wireEvents t := rfl

theorem wireEvents_cons_body (i : Nat) (t : List Ev) :
    wireEvents (.body i :: t) = wireEvents t := rfl

theorem runRoutes_uni_first_accept (req : Request) (huni : req.unidirectional = true)
    (hs : List HandlerSpec) (hacc : ∃ h ∈ hs, h.filter = true) (i : Nat) :
    (runRoutes req i (MessageResponder.mk0 req) false hs).1 = ⟨req, true⟩
    ∧ (runRoutes req i (MessageResponder.mk0 req) false hs).2.1 = true
    ∧ wireEvents (runRoutes req i (MessageResponder.mk0 req) false hs).2.2.1
        = [⟨req.id, req.path, 202, none⟩]
    ∧ (runRoutes req i (MessageResponder.mk0 req) false hs).2.2.1.head?
        = some (.wire ⟨req.id, req.path, 202, none⟩) := by
  induction hs generalizing i with
  | nil => simp at hacc
  | cons h rest ih =>
    by_cases hf : h.filter = true
    · cases ho : h.outcome with
      | ret value =>
        cases value with
        | none =>
          obtain ⟨g1, g2, g3⟩ := runRoutes_of_responded req rest (i + 1)
          simp [runRoutes, runRoute, hf, ho, huni, MessageResponder.mk0,
            MessageResponder.send, MessageResponder.canRespond,
            runSends_of_responded, wireEvents_append, wireEvents_nil,
            wireEvents_cons_wire, wireEvents_cons_body, g1, g2, g3]
        | some v =>
          obtain ⟨g1, g2, g3⟩ := runRoutes_of_responded req rest (i + 1)
          simp [runRoutes, runRoute, hf, ho, huni, MessageResponder.mk0,
            MessageResponder.send, MessageResponder.canRespond,
            runSends_of_responded, wireEvents_append, wireEvents_nil,
            wireEvents_cons_wire, wireEvents_cons_body, g1, g2, g3]
      | raise e =>
        simp [runRoutes, runRoute, hf, ho, huni, MessageResponder.mk0,
          MessageResponder.send, MessageResponder.canRespond,
          runSends_of_responded, wireEvents_append, wireEvents_nil,
          wireEvents_cons_wire, wireEvents_cons_body]
    · have hf' : h.filter = false := by
        cases hfv : h.filter
        · rfl
        · exact absurd hfv hf
      have hacc2 : ∃ h2 ∈ rest, h2.filter = true := by
        obtain ⟨h2, hm, hh2⟩ := hacc
        rcases List.mem_cons.mp hm with heq | hm2
        · exact absurd (heq ▸ hh2) hf
        · exact ⟨h2, hm2, hh2⟩
      obtain ⟨g1, g2, g3, g4⟩ := ih hacc2 (i + 1)
      simp [runRoutes, runRoute, hf', g1, g2, g3, g4]

/-- C6: for a unidirectional inbound request with at least one handler passing
its filter, the wire traffic of the whole dispatch is exactly one 202
(accepted) response, and that 202 is the very first event of the dispatch —
in particular it precedes the start of every accepting handler's body (the
`Ev.body` events), even when several handlers accept the request. -/
theorem server_unidirectional_single_202 (routes : RouteTable) (v : Json)
    (req : Request) (hparse : Request.parse v = some req)
    (huni : req.unidirectional = true)
    (hacc : ∃ h ∈ listeners routes req.path, h.filter = true) :
    wireEvents (Server.receive routes v).1 = [⟨req.id, req.path, 202, none⟩]
    ∧ (Server.receive routes v).1.head?
        = some (.wire ⟨req.id, req.path, 202, none⟩) := by
  obtain ⟨g1, g2, g3, g4⟩ :=
    runRoutes_uni_first_accept req huni (listeners routes req.path) hacc 0
  rcases hrr : runRoutes req 0 (MessageResponder.mk0 req) false
      (listeners routes req.path) with ⟨r1, resolved1, evs1, err1⟩
  rw [hrr] at g1 g2 g3 g4
  simp only at g1 g2 g3 g4
  subst g1
  subst g2
  cases err1 with
  | some e => simp [Server.receive, hparse, routeRequest, hrr, g3, g4]
  | none =>
    simp [Server.receive, hparse, routeRequest, hrr, MessageResponder.send,
      MessageResponder.canRespond, wireEvents_append, wireEvents_nil, g3, g4]

/-- Witness for C6: two handlers on the same path that both accept a concrete
unidirectional request; the dispatch emits exactly one 202 as its first event. -/
theorem server_unidirectional_single_202_witness :
    wireEvents (Server.receive
        [("/p", ⟨true, [], .ret none⟩), ("/p", ⟨true, [], .ret none⟩)]
        (.obj [("__type", .str "request"), ("id", .str "a"), ("path", .str "/p"),
          ("unidirectional", .bool true)])).1
      = [⟨"a", "/p", 202, none⟩] :=
  (server_unidirectional_single_202
    [("/p", ⟨true, [], .ret none⟩), ("/p", ⟨true, [], .ret none⟩)]
    (.obj [("__type", .str "request"), ("id", .str "a"), ("path", .str "/p"),
      ("unidirectional", .bool true)])
    ⟨"a", ⟨"/p", none, none, some true⟩⟩ rfl rfl
    ⟨⟨true, [], .ret none⟩, by simp [listeners, Request.path], rfl⟩).1

theorem resolveRequest_of_pending (s : ClientState) (resp : Response)
    (hp : s.isPending resp.id = true) :
    s.resolveRequest resp
      = (⟨eraseKey s.pending resp.id,
          if resp.status ≠ 408 then eraseKey s.timers resp.id else s.timers,
          s.resolutions ++ [(resp.id, resp)]⟩, true) := by
  rw [ClientState.isPending] at hp
  rcases hl : lookupKey s.pending resp.id with _ | val
  · rw [hl] at hp
    simp at hp
  · unfold ClientState.resolveRequest
    rw [hl]

theorem resolveRequest_of_not_pending (s : ClientState) (resp : Response)
    (hp : s.isPending resp.id = false) :
    s.resolveRequest resp = (s, false) := by
  rw [ClientState.isPending] at hp
  rcases hl : lookupKey s.pending resp.id with _ | val
  · unfold ClientState.resolveRequest
    rw [hl, eraseKey_eq_self_of_lookup_none s.pending resp.id hl]
  · rw [hl] at hp
    simp at hp

theorem resolvedCount_append_one (rs : List (String × Response)) (a id : String)
    (resp : Response) :
    ((rs ++ [(a, resp)]).filter (fun p => p.1 = id)).length
      = (rs.filter (fun p => p.1 = id)).length + (if a = id then 1 else 0) := by
  by_cases ha : a = id <;> simp [List.filter_append, ha]

theorem inv_resolveRequest (s : ClientState) (resp : Response) (id : String)
    (h1 : s.resolvedCount id ≤ 1)
    (h2 : 1 ≤ s.resolvedCount id → s.isPending id = false) :
    (s.resolveRequest resp).1.resolvedCount id ≤ 1
    ∧ (1 ≤ (s.resolveRequest resp).1.resolvedCount id →
        (s.resolveRequest resp).1.isPending id = false) := by
  by_cases hp : s.isPending resp.id = true
  · rw [resolveRequest_of_pending s resp hp]
    by_cases hid : resp.id = id
    · subst hid
      have hc0 : s.resolvedCount resp.id = 0 := by
        by_contra hne
        have : 1 ≤ s.resolvedCount resp.id := by omega
        rw [h2 this] at hp
        exact Bool.false_ne_true hp
      constructor
      · simp only [ClientState.resolvedCount] at hc0 ⊢
        rw [resolvedCount_append_one]
        simp [hc0]
      · intro _
        simp [ClientState.isPending, lookupKey_eraseKey_self]
    · constructor
      · simp only [ClientState.resolvedCount] at h1 ⊢
        rw [resolvedCount_append_one]
        simp [hid]
        omega
      · intro hge
        simp only [ClientState.resolvedCount] at hge h2
        rw [resolvedCount_append_one] at hge
        simp [hid] at hge
        have := h2 hge
        simp only [ClientState.isPending] at this ⊢
        rwa [lookupKey_eraseKey_ne s.pending id resp.id (fun hh => hid hh.symm)]
  · have hp2 : s.isPending resp.id = false := by
      cases hv : s.isPending resp.id
      · rfl
      · exact absurd hv hp
    rw [resolveRequest_of_not_pending s resp hp2]
    exact ⟨h1, h2⟩

theorem step_preserves_once (s : ClientState) (ev : ClientEvent) (id : String)
    (h1 : s.resolvedCount id ≤ 1)
    (h2 : 1 ≤ s.resolvedCount id → s.isPending id = false) :
    (s.step ev).resolvedCount id ≤ 1
    ∧ (1 ≤ (s.step ev).resolvedCount id → (s.step ev).isPending id = false) := by
  cases ev with
  | recv v =>
    rcases hp : Response.parse v with _ | resp
    · simpa [ClientState.step, ClientState.receive, hp] using And.intro h1 h2
    · have hinv := inv_resolveRequest s resp id h1 h2
      simpa [ClientState.step, ClientState.receive, hp] using hinv
  | timerFires tid =>
    rcases hl : lookupKey s.timers tid with _ | path
    · simpa [ClientState.step, hl] using And.intro h1 h2
    · have hinv := inv_resolveRequest ⟨s.pending, eraseKey s.timers tid, s.resolutions⟩
        ⟨tid, path, 408, none⟩ id h1 h2
      simpa [ClientState.step, hl] using hinv
  | proxyRejected pid ppath =>
    exact inv_resolveRequest s ⟨pid, ppath, 406, none⟩ id h1 h2

theorem run_preserves_once (s : ClientState) (events : List ClientEvent)
    (id : String) (h1 : s.resolvedCount id ≤ 1)
    (h2 : 1 ≤ s.resolvedCount id → s.isPending id = false) :
    (s.run events).resolvedCount id ≤ 1
    ∧ (1 ≤ (s.run events).resolvedCount id → (s.run events).isPending id = false) := by
  induction events generalizing s with
  | nil => exact ⟨h1, h2⟩
  | cons e rest ih =>
    obtain ⟨g1, g2⟩ := step_preserves_once s e id h1 h2
    simpa [ClientState.run] using ih (s.step e) g1 g2

theorem send_establishes_once (s : ClientState) (req : Request)
    (pb : ProxyBehavior) (h0 : s.resolvedCount req.id = 0) :
    (s.send req pb).1.resolvedCount req.id ≤ 1
    ∧ (1 ≤ (s.send req pb).1.resolvedCount req.id →
        (s.send req pb).1.isPending req.id = false) := by
  cases pb with
  | throws e =>
    have hc : (s.send req (.throws e)).1.resolvedCount req.id
        = s.resolvedCount req.id := rfl
    rw [hc, h0]
    exact ⟨by omega, by omega⟩
  | returns accepted =>
    cases accepted with
    | true =>
      have hc : (s.send req (.returns true)).1.resolvedCount req.id
          = s.resolvedCount req.id := rfl
      rw [hc, h0]
      exact ⟨by omega, by omega⟩
    | false =>
      have hpend : (⟨mapSet s.pending req.id req.path,
          s.timers ++ [(req.id, req.path)], s.resolutions⟩ : ClientState).isPending
            req.id = true := by
        simp [ClientState.isPending, mapSet, lookupKey_append_single]
      have hrw := resolveRequest_of_pending
        ⟨mapSet s.pending req.id req.path, s.timers ++ [(req.id, req.path)],
          s.resolutions⟩ ⟨req.id, req.path, 406, none⟩ hpend
      constructor
      · simp only [ClientState.send, hrw, ClientState.resolvedCount] at h0 ⊢
        rw [resolvedCount_append_one]
        simp [h0]
      · intro _
        simp [ClientState.send, hrw, ClientState.isPending, lookupKey_eraseKey_self]

/-- C2: a pending request reaches a terminal state exactly once. After a request
is sent (with any proxy behaviour — acceptance, refusal, or a thrown error),
across every subsequent sequence of client events (inbound values, timer
firings, proxy refusals) the resolver of that request is invoked at most once,
and once it has been invoked the request is no longer in the pool; the timeout
firing first resolves the request with a 408 (timeout) response and removes it
from the pool; and any resolution attempt for an id that is not pending is a
no-op that leaves the state unchanged and reports `false`. -/
theorem pending_request_terminal_once (s : ClientState) (req : Request)
    (pb : ProxyBehavior) (events : List ClientEvent)
    (h0 : s.resolvedCount req.id = 0)
    (hT : lookupKey s.timers req.id = none) :
    (((s.send req pb).1.run events).resolvedCount req.id ≤ 1
      ∧ (1 ≤ ((s.send req pb).1.run events).resolvedCount req.id →
          ((s.send req pb).1.run events).isPending req.id = false))
    ∧ (pb = .returns true →
        ((s.send req pb).1.step (.timerFires req.id)).resolutions
            = s.resolutions ++ [(req.id, ⟨req.id, req.path, 408, none⟩)]
          ∧ ((s.send req pb).1.step (.timerFires req.id)).isPending req.id = false)
    ∧ (∀ t : ClientState, ∀ resp : Response, t.isPending resp.id = false →
        t.resolveRequest resp = (t, false)) := by
  refine ⟨?_, ?_, fun t resp hp => resolveRequest_of_not_pending t resp hp⟩
  · obtain ⟨g1, g2⟩ := send_establishes_once s req pb h0
    exact run_preserves_once _ events req.id g1 g2
  · rintro rfl
    have hlook : lookupKey (s.timers ++ [(req.id, req.path)]) req.id
        = some req.path := by
      rw [lookupKey_append_of_none _ _ _ hT]
      simp [lookupKey]
    have hpend : (⟨mapSet s.pending req.id req.path,
        eraseKey (s.timers ++ [(req.id, req.path)]) req.id,
        s.resolutions⟩ : ClientState).isPending req.id = true := by
      simp [ClientState.isPending, mapSet, lookupKey_append_single]
    have hrw := resolveRequest_of_pending
      ⟨mapSet s.pending req.id req.path,
        eraseKey (s.timers ++ [(req.id, req.path)]) req.id, s.resolutions⟩
      ⟨req.id, req.path, 408, none⟩ hpend
    constructor
    · simp [ClientState.send, ClientState.step, hlook, hrw]
    · simp [ClientState.send, ClientState.step, hlook, hrw, ClientState.isPending,
        lookupKey_eraseKey_self]

/-- Witness for C2: a concrete request whose timer fires twice after the proxy
accepted it; the resolver is invoked at most once. -/
theorem pending_request_terminal_once_witness :
    ((ClientState.init.send ⟨"a", ⟨"/p", none, none, none⟩⟩
        (.returns true)).1.run [.timerFires "a", .timerFires "a"]).resolvedCount "a"
      ≤ 1 :=
  (pending_request_terminal_once ClientState.init ⟨"a", ⟨"/p", none, none, none⟩⟩
    (.returns true) [.timerFires "a", .timerFires "a"] rfl rfl).1.1

/-- Counterexample to C3 as stated: when the transport proxy throws (a rejected
promise), `Client.send`'s `await this.#proxy(...)` has no catch, so the promise
returned by `send` rejects with the proxy's error instead of resolving to a
failure-status response object. -/
theorem client_send_proxy_throw_rejects :
    (ClientState.init.send ⟨"a", ⟨"/p", none, none, none⟩⟩ (.throws "boom")).2
      = .rejected "boom" := rfl

/-- C3 (amended): when the transport proxy returns a boolean, the promise
returned by `send` never rejects — a proxy answering `false` resolves it
immediately with a 406 (not-acceptable) response, a proxy answering `true`
leaves it awaiting, and if the timeout then fires first the request is resolved
with a 408 (timeout) response; only a proxy that itself throws causes the
promise to reject. -/
theorem client_send_failure_resolves (s : ClientState) (req : Request)
    (hT : lookupKey s.timers req.id = none) :
    (s.send req (.returns false)).2 = .resolved ⟨req.id, req.path, 406, none⟩
    ∧ (s.send req (.returns true)).2 = .awaiting
    ∧ (∀ (e : Err) (b : Bool), (s.send req (.returns b)).2 ≠ .rejected e)
    ∧ ((s.send req (.returns true)).1.step (.timerFires req.id)).resolutions
        = s.resolutions ++ [(req.id, ⟨req.id, req.path, 408, none⟩)] := by
  have hpend : (⟨mapSet s.pending req.id req.path,
      s.timers ++ [(req.id, req.path)], s.resolutions⟩ : ClientState).isPending
        req.id = true := by
    simp [ClientState.isPending, mapSet, lookupKey_append_single]
  have hrw406 := resolveRequest_of_pending
    ⟨mapSet s.pending req.id req.path, s.timers ++ [(req.id, req.path)],
      s.resolutions⟩ ⟨req.id, req.path, 406, none⟩ hpend
  refine ⟨?_, rfl, ?_, ?_⟩
  · simp [ClientState.send, hrw406]
  · intro e b
    cases b
    · simp [ClientState.send, hrw406]
    · simp [ClientState.send]
  · have hlook : lookupKey (s.timers ++ [(req.id, req.path)]) req.id
        = some req.path := by
      rw [lookupKey_append_of_none _ _ _ hT]
      simp [lookupKey]
    have hpend2 : (⟨mapSet s.pending req.id req.path,
        eraseKey (s.timers ++ [(req.id, req.path)]) req.id,
        s.resolutions⟩ : ClientState).isPending req.id = true := by
      simp [ClientState.isPending, mapSet, lookupKey_append_single]
    have hrw408 := resolveRequest_of_pending
      ⟨mapSet s.pending req.id req.path,
        eraseKey (s.timers ++ [(req.id, req.path)]) req.id, s.resolutions⟩
      ⟨req.id, req.path, 408, none⟩ hpend2
    simp [ClientState.send, ClientState.step, hlook, hrw408]

/-- Witness for C3 (amended): a concrete request whose proxy answers `false`
resolves immediately with the 406 response. -/
theorem client_send_failure_resolves_witness :
    (ClientState.init.send ⟨"b", ⟨"/q", none, none, none⟩⟩ (.returns false)).2
      = .resolved ⟨"b", "/q", 406, none⟩ :=
  (client_send_failure_resolves ClientState.init ⟨"b", ⟨"/q", none, none, none⟩⟩
    rfl).1

/-- Counterexample to C8 as stated: a wire response with status 408 that matches
a pending request is consumed (`receive` returns `true`) but its timer is NOT
cancelled — the stored resolver only calls `clearTimeout` when the status is
not 408, so the timer entry stays armed. -/
theorem client_receive_408_timer_left_armed :
    ((⟨[("a", "/p")], [("a", "/p")], []⟩ : ClientState).receive
        (.obj [("__type", .str "response"), ("id", .str "a"), ("path", .str "/p"),
          ("status", .num 408)])).2 = true
    ∧ ((⟨[("a", "/p")], [("a", "/p")], []⟩ : ClientState).receive
        (.obj [("__type", .str "response"), ("id", .str "a"), ("path", .str "/p"),
          ("status", .num 408)])).1.timers = [("a", "/p")] :=
  ⟨rfl, rfl⟩

/-- C8 (amended): `Client.receive(value)` returns `true` when `value` parses as
a response matching a pending request id; it then removes the request from the
pool, invokes its resolver with the response, and cancels its timer when the
response status is not 408 (for a 408-status response the timer is left armed;
its later firing is inert because the pool entry was removed). In every other
case — the value does not parse as a response, or no pending request matches —
it returns `false` and the client state is unchanged (and the transport proxy,
which `receive` never touches, is not invoked). -/
theorem client_receive_matching (s : ClientState) (v : Json) :
    (∀ resp : Response, Response.parse v = some resp →
      s.isPending resp.id = true →
        (s.receive v).2 = true
        ∧ (s.receive v).1.pending = eraseKey s.pending resp.id
        ∧ (s.receive v).1.resolutions = s.resolutions ++ [(resp.id, resp)]
        ∧ (resp.status ≠ 408 → (s.receive v).1.timers = eraseKey s.timers resp.id)
        ∧ (resp.status = 408 → (s.receive v).1.timers = s.timers))
    ∧ (∀ resp : Response, Response.parse v = some resp →
        s.isPending resp.id = false → s.receive v = (s, false))
    ∧ (Response.parse v = none → s.receive v = (s, false)) := by
  refine ⟨?_, ?_, ?_⟩
  · intro resp hp hpend
    have hrw := resolveRequest_of_pending s resp hpend
    refine ⟨?_, ?_, ?_, ?_, ?_⟩ <;>
      simp [ClientState.receive, hp, hrw]
    · intro h408
      simp [h408]
    · intro h408
      simp [h408]
  · intro resp hp hpend
    simp [ClientState.receive, hp, resolveRequest_of_not_pending s resp hpend]
  · intro hp
    simp [ClientState.receive, hp]

/-- Witness for C8 (amended): a 200-status response matching the single pending
request is consumed and its timer is cancelled. -/
theorem client_receive_matching_witness :
    ((⟨[("c", "/r")], [("c", "/r")], []⟩ : ClientState).receive
        (.obj [("__type", .str "response"), ("id", .str "c"), ("path", .str "/r"),
          ("status", .num 200)])).2 = true :=
  ((client_receive_matching ⟨[("c", "/r")], [("c", "/r")], []⟩
    (.obj [("__type", .str "response"), ("id", .str "c"), ("path", .str "/r"),
      ("status", .num 200)])).1 ⟨"c", "/r", 200, none⟩ rfl rfl).1
